import Mathlib

/-!
Shallow embedding of the GitHub webhook relay handler
(supabase/functions/github-webhook/index.ts) and verification of its
specification.  The handler is a single stateless request processor; we
model it as a pure function from configuration, the inbound request, two
timestamps and the outcomes of the two outbound network calls (repository
metadata fetch and workflow dispatch) to a response together with the list
of outbound calls that were issued.
-/

namespace Webhook

/-- JSON values, as used in the handler's response bodies. -/
inductive Json where
  | str : String → Json
  | nat : Nat → Json
  | arr : List Json → Json
  | obj : List (String × Json) → Json
deriving Repr

/-- An HTTP response: status code plus JSON object body (field list in
insertion order, as produced by the source's object literals). -/
structure Response where
  status : Nat
  body : List (String × Json)
deriving Repr

/-- The outbound network calls the handler can issue. -/
inductive OutboundCall where
  | fetchRepoMetadata (owner name : String)
  | dispatchWorkflow (owner name workflowFilename ref : String)
      (inputs : List (String × String))
deriving Repr, DecidableEq

/-- Whether an outbound call is a workflow-dispatch call. -/
def isDispatch : OutboundCall → Bool
  | .dispatchWorkflow .. => true
  | .fetchRepoMetadata .. => false

/-- Process-wide configuration read via Deno.env.get; `none` models an
unset environment variable. -/
structure Config where
  githubToken : Option String
  automationRepoOwner : Option String
  automationRepoName : Option String
  workflowMappings : Option String
  environment : Option String

/-- The pull_request object of a PR payload, restricted to the fields the
handler reads (each optional-chained in the source). -/
structure PullRequestObj where
  head_ref : Option String
  user_login : Option String
  title : Option String
  html_url : Option String
  base_ref : Option String
deriving Repr, DecidableEq

/-- The webhook payload, restricted to the fields the handler reads.
For `repository` and `sender` the outer option models presence of the
object and the inner option presence of its field. -/
structure Payload where
  repository_full_name : Option (Option String)
  sender_login : Option (Option String)
  deleted : Option Bool
  ref : Option String
  pusher_name : Option String
  after : Option String
  head_commit_message : Option String
  head_commit_url : Option String
  action : Option String
  number : Option Nat
  pull_request : Option PullRequestObj
deriving Repr, DecidableEq

/-- The inbound request: the x-github-event header (none when missing) and
the parsed JSON body (none when req.json() throws). -/
structure Request where
  eventHeader : Option String
  body : Option Payload

/-- Outcome of the automation-repository metadata fetch.  `ok db` is a
2xx response whose parsed JSON has default_branch `db` (none when the
field is missing). -/
inductive FetchOutcome where
  | networkError (msg : String)
  | httpError (status : Nat) (bodyText : String)
  | ok (defaultBranch : Option String)

/-- Outcome of the workflow-dispatch POST.  For a non-2xx response the
oracle carries the body parsed as JSON when parseable and the body read
as text when readable, mirroring the source's fallback chain. -/
inductive DispatchOutcome where
  | networkError (msg : String)
  | httpError (status : Nat) (jsonBody : Option Json) (textBody : Option String)
  | ok

/-- The handler's result: the response returned to the webhook sender and
the outbound calls issued, in order. -/
structure HandlerResult where
  response : Response
  calls : List OutboundCall

/-! ### JavaScript string primitives -/

/-- JS truthiness of a string: falsy iff empty. -/
def strTruthy (s : String) : Bool := s != ""

/-- JS truthiness of a possibly-undefined string. -/
def optTruthy : Option String → Bool
  | some s => strTruthy s
  | none => false

/-- JS `a || b` on a possibly-undefined string. -/
def jsOrStr (o : Option String) (d : String) : String :=
  match o with
  | some s => if s = "" then d else s
  | none => d

/-- Split a character list at every occurrence of a separator character,
as `String.prototype.split` does with a one-character separator. -/
def splitOnChar (sep : Char) : List Char → List (List Char)
  | [] => [[]]
  | c :: cs =>
    if c = sep then [] :: splitOnChar sep cs
    else
      match splitOnChar sep cs with
      | [] => [[c]]
      | g :: gs => (c :: g) :: gs

/-- JS `s.split(sep)` for a one-character separator. -/
def jsSplit (s : String) (sep : Char) : List String :=
  (splitOnChar sep s.data).map (fun l => String.mk l)

/-- JS `s.trim()` (restricted to ASCII whitespace, which covers every
string the handler deals with). -/
def jsTrim (s : String) : String :=
  String.mk (((s.data.dropWhile Char.isWhitespace).reverse.dropWhile Char.isWhitespace).reverse)

/-- Replace the first occurrence of `pat` in a character list by `rep`,
as JS `String.prototype.replace` does for a non-empty string pattern. -/
def replaceFirstL (pat rep : List Char) : List Char → List Char
  | [] => []
  | c :: cs =>
    if pat.isPrefixOf (c :: cs) then rep ++ (c :: cs).drop pat.length
    else c :: replaceFirstL pat rep cs

/-- JS `s.replace(pat, rep)` for a non-empty string pattern `pat`. -/
def jsReplaceFirst (s pat rep : String) : String :=
  String.mk (replaceFirstL pat.data rep.data s.data)

/-! ### String-keyed records (JS plain objects, insertion-ordered) -/

/-- Read a property: the value of the first matching key, as a JS object
lookup (our records never hold duplicate keys). -/
def getVal : List (String × String) → String → Option String
  | [], _ => none
  | (k, v) :: r, key => if k = key then some v else getVal r key

/-- Write a property: replace the first matching key in place, else
append, as JS property assignment preserves key insertion order. -/
def setVal : List (String × String) → String → String → List (String × String)
  | [], key, v => [(key, v)]
  | (k, w) :: r, key, v =>
    if k = key then (key, v) :: r else (k, w) :: setVal r key v

/-- `Object.keys`, in insertion order. -/
def keysOf (r : List (String × String)) : List String := r.map Prod.fst

/-- Whether a response body has a field of the given name. -/
def hasField (r : Response) (key : String) : Bool :=
  (r.body.map Prod.fst).contains key

/-! ### Diagnostic serialization (JSON.stringify) -/

/-- Wrap a string in quotes, as JSON.stringify renders it (no escaping:
only used for diagnostic excerpts). -/
def quoteJson (s : String) : String := "\"" ++ s ++ "\""

/-- JSON.stringify of a JSON value (diagnostic use only). -/
def Json.stringify : Json → String
  | .str s => quoteJson s
  | .nat n => toString n
  | .arr xs => "[" ++ String.intercalate "," (xs.attach.map (fun x => Json.stringify x.1)) ++ "]"
  | .obj fs => "\x7b" ++
      String.intercalate "," (fs.attach.map (fun f => quoteJson f.1.1 ++ ":" ++ Json.stringify f.1.2)) ++ "\x7d"
decreasing_by
  · simp only [Json.arr.sizeOf_spec]
    have := List.sizeOf_lt_of_mem x.2
    omega
  · simp only [Json.obj.sizeOf_spec]
    have h1 := List.sizeOf_lt_of_mem f.2
    have : sizeOf f.1.2 < sizeOf f.1 := by
      obtain ⟨a, b⟩ := f.1
      simp only [Prod.mk.sizeOf_spec]
      omega
    omega

/-- JS truthiness of a JSON value: empty string and zero are falsy,
arrays and objects are truthy. -/
def jsTruthyJson : Json → Bool
  | .str s => s != ""
  | .nat n => n != 0
  | .arr _ => true
  | .obj _ => true

/-- Render an optional string field value as JSON.stringify would. -/
def optFieldJson (o : Option String) : Option String :=
  o.map quoteJson

/-- Render the fields of the modeled payload that are present, in the
order the model declares them; used for the diagnostic payload excerpt
(JSON.stringify of the payload). -/
def Payload.fieldStrings (p : Payload) : List String :=
  (match p.repository_full_name with
   | some fn => ["\"repository\":\x7b\"full_name\":" ++ (match fn with | some s => quoteJson s | none => "null") ++ "\x7d"]
   | none => []) ++
  (match p.sender_login with
   | some lg => ["\"sender\":\x7b\"login\":" ++ (match lg with | some s => quoteJson s | none => "null") ++ "\x7d"]
   | none => []) ++
  (match p.deleted with
   | some b => ["\"deleted\":" ++ (if b then "true" else "false")]
   | none => []) ++
  (match optFieldJson p.ref with | some s => ["\"ref\":" ++ s] | none => []) ++
  (match optFieldJson p.pusher_name with | some s => ["\"pusher\":\x7b\"name\":" ++ s ++ "\x7d"] | none => []) ++
  (match optFieldJson p.after with | some s => ["\"after\":" ++ s] | none => []) ++
  (match optFieldJson p.head_commit_message with | some s => ["\"head_commit_message\":" ++ s] | none => []) ++
  (match optFieldJson p.head_commit_url with | some s => ["\"head_commit_url\":" ++ s] | none => []) ++
  (match optFieldJson p.action with | some s => ["\"action\":" ++ s] | none => []) ++
  (match p.number with | some n => ["\"number\":" ++ toString n] | none => []) ++
  (match p.pull_request with
   | some pr => ["\"pull_request\":\x7b" ++ String.intercalate ","
       ((match optFieldJson pr.head_ref with | some s => ["\"head_ref\":" ++ s] | none => []) ++
        (match optFieldJson pr.user_login with | some s => ["\"user_login\":" ++ s] | none => []) ++
        (match optFieldJson pr.title with | some s => ["\"title\":" ++ s] | none => []) ++
        (match optFieldJson pr.html_url with | some s => ["\"html_url\":" ++ s] | none => []) ++
        (match optFieldJson pr.base_ref with | some s => ["\"base_ref\":" ++ s] | none => [])) ++ "\x7d"]
   | none => [])

/-- JSON.stringify(payload).substring(0, 1000): the bounded diagnostic
excerpt used in the branch-invariant error body. -/
def Payload.excerpt (p : Payload) : String :=
  String.mk (("\x7b" ++ String.intercalate "," p.fieldStrings ++ "\x7d").data.take 1000)

/-! ### The handler, phase by phase (index.ts lines 195-629) -/

/-- Step 1 (source lines 198-204): the x-github-event header must be
present (JS-truthy); otherwise 400. -/
def validateEvent (req : Request) : Except Response String :=
  if optTruthy req.eventHeader then .ok (req.eventHeader.getD "")
  else .error ⟨400, [("error", Json.str "Missing GitHub event header")]⟩

/-- Step 2 (source lines 207-228): GITHUB_TOKEN, AUTOMATION_REPO_OWNER
and AUTOMATION_REPO_NAME must all be set; otherwise 500. -/
def validateConfig (cfg : Config) : Except Response (String × String) :=
  if ¬ optTruthy cfg.githubToken then
    .error ⟨500, [("error", Json.str "Server configuration error: missing authentication token")]⟩
  else if ¬ optTruthy cfg.automationRepoOwner ∨ ¬ optTruthy cfg.automationRepoName then
    .error ⟨500, [("error", Json.str "Server configuration error: missing repository configuration")]⟩
  else
    .ok (cfg.automationRepoOwner.getD "", cfg.automationRepoName.getD "")

/-- Step 3 (source lines 234-243): the body must parse as JSON;
otherwise 400. -/
def parsePayload (req : Request) : Except Response Payload :=
  match req.body with
  | none => .error ⟨400, [("error", Json.str "Invalid JSON payload")]⟩
  | some p => .ok p

/-- Step 4 (source lines 245-302): interpret the outcome of the
automation-repo metadata fetch; any failure or a missing/empty
default_branch yields 500, success yields the default branch. -/
def fetchDefaultBranch (fo : FetchOutcome) : Except Response String :=
  match fo with
  | .networkError msg =>
    .error ⟨500, [("error", Json.str "Failed to fetch automation repository metadata"),
                  ("message", Json.str msg)]⟩
  | .httpError status bodyText =>
    .error ⟨500, [("error", Json.str "Failed to fetch automation repository metadata"),
                  ("status", Json.nat status),
                  ("details", Json.str bodyText)]⟩
  | .ok db =>
    if ¬ optTruthy db then
      .error ⟨500, [("error", Json.str "Could not determine default branch for automation repository"),
                    ("repo_data", Json.obj (match db with
                      | some s => [("default_branch", Json.str s)]
                      | none => []))]⟩
    else .ok (db.getD "")

/-- Source line 311: `payload.repository ? (payload.repository.full_name || "") : ""`. -/
def repositoryFullNameOf (p : Payload) : String :=
  match p.repository_full_name with
  | some fn => jsOrStr fn ""
  | none => ""

/-- Step 5 (source lines 305-318): base inputs common to all events. -/
def baseInputs (event now : String) (p : Payload) : List (String × String) :=
  let i : List (String × String) := [("event_type", event), ("timestamp", now)]
  let i := if repositoryFullNameOf p ≠ "" then setVal i "repository" (repositoryFullNameOf p) else i
  match p.sender_login with
  | some login => setVal i "sender" (jsOrStr login "Unknown")
  | none => i

/-- Source lines 332-340: parse the WORKFLOW_MAPPINGS string, format
"repo1:workflow1,repo2:workflow2"; a pair is kept when both halves are
JS-truthy before trimming. -/
def parseWorkflowMappings (s : String) : List (String × String) :=
  (jsSplit s ',').foldl
    (fun m mapping =>
      match jsSplit mapping ':' with
      | repo :: workflow :: _ =>
        if repo ≠ "" ∧ workflow ≠ "" then setVal m (jsTrim repo) (jsTrim workflow) else m
      | _ => m)
    []

/-- Steps 5b (source lines 321-385): require WORKFLOW_MAPPINGS, parse it,
fail on zero valid pairs, then look up the source repository; an absent
repository yields 400 listing the known keys. -/
def resolveWorkflow (wmOpt : Option String) (repositoryFullName : String) :
    Except Response String :=
  if ¬ optTruthy wmOpt then
    .error ⟨500, [("error", Json.str "Server configuration error: missing workflow mappings")]⟩
  else
    let wm := parseWorkflowMappings (wmOpt.getD "")
    if (keysOf wm).length = 0 then
      .error ⟨500, [("error", Json.str "Failed to load workflow mapping"),
                    ("message", Json.str "No valid mappings found")]⟩
    else if repositoryFullName ≠ "" ∧ optTruthy (getVal wm repositoryFullName) then
      let wf := (getVal wm repositoryFullName).getD ""
      if wf = "" then
        .error ⟨500, [("error", Json.str "Could not determine workflow filename"),
                      ("repository", Json.str repositoryFullName)]⟩
      else .ok wf
    else
      .error ⟨400, [("error", Json.str "Repository not configured"),
                    ("message", Json.str ("No workflow mapping found for repository: " ++ repositoryFullName)),
                    ("available_repositories", Json.arr ((keysOf wm).map Json.str))]⟩

/-- Source lines 453-457: PR actions that trigger a build. -/
def buildTriggeringActions : List String := ["opened", "reopened", "synchronize"]

/-- Step 6 (source lines 387-509): the event normalizer.  An `.error`
result is an early response (success for the no-op short-circuits, 400
for malformed payloads); `.ok` carries the augmented inputs and the
source branch. -/
def normalizeEvent (event : String) (p : Payload) (inputs : List (String × String)) :
    Except Response (List (String × String) × String) :=
  if event = "push" then
    if p.deleted = some true then
      .error ⟨200, [("message", Json.str "Branch deletion event, no build needed")]⟩
    else if ¬ optTruthy p.ref then
      .error ⟨400, [("error", Json.str "Invalid push event payload: missing ref")]⟩
    else
      let sourceRepoBranch := jsReplaceFirst (p.ref.getD "") "refs/heads/" ""
      if sourceRepoBranch = "" then
        .error ⟨400, [("error", Json.str "Invalid branch reference format")]⟩
      else
        let i := setVal inputs "branch" sourceRepoBranch
        let i := setVal i "author" (jsOrStr p.pusher_name "Unknown")
        let i := setVal i "commit_sha" (jsOrStr p.after "")
        let i := setVal i "commit_message" (jsOrStr p.head_commit_message "")
        let i := setVal i "commit_url" (jsOrStr p.head_commit_url "")
        .ok (i, sourceRepoBranch)
  else if event = "pull_request" then
    if ¬ optTruthy p.action then
      .error ⟨400, [("error", Json.str "Invalid PR event payload: missing action or pull_request")]⟩
    else
      match p.pull_request with
      | none =>
        .error ⟨400, [("error", Json.str "Invalid PR event payload: missing action or pull_request")]⟩
      | some pr =>
        let prAction := p.action.getD ""
        if ¬ buildTriggeringActions.contains prAction then
          .error ⟨200, [("message", Json.str ("PR action '" ++ prAction ++ "' doesn't trigger a build"))] ++
                       (match p.number with
                        | some num => [("pr_number", Json.nat num)]
                        | none => []) ++
                       [("pr_action", Json.str prAction)]⟩
        else
          let sourceRepoBranch := jsOrStr pr.head_ref ""
          if sourceRepoBranch = "" then
            .error ⟨400, [("error", Json.str "Missing branch information in PR data")]⟩
          else
            let i := setVal inputs "branch" sourceRepoBranch
            let i := setVal i "pr_number" (match p.number with | some num => toString num | none => "")
            let i := setVal i "pr_action" prAction
            let i := setVal i "author" (jsOrStr pr.user_login "Unknown")
            let i := setVal i "pr_title" (jsOrStr pr.title "")
            let i := setVal i "pr_url" (jsOrStr pr.html_url "")
            let i := setVal i "target_branch" (jsOrStr pr.base_ref "")
            .ok (i, sourceRepoBranch)
  else
    .error ⟨200, [("message", Json.str ("Ignored event: " ++ event))]⟩

/-- Source lines 511-522: defense-in-depth check that `branch` is a
non-empty input before dispatching. -/
def branchCheck (inputs : List (String × String)) (event : String) (p : Payload) :
    Except Response Unit :=
  if ¬ optTruthy (getVal inputs "branch") then
    .error ⟨400, [("error", Json.str "Could not determine branch to build"),
                  ("event", Json.str event),
                  ("payload_excerpt", Json.str p.excerpt)]⟩
  else .ok ()

/-- Source lines 530-541: the fixed priority list used when trimming. -/
def essentialKeys : List String :=
  ["event_type", "timestamp", "repository", "sender", "branch",
   "author", "commit_sha", "pr_number", "pr_title", "target_branch"]

/-- Source lines 544-551: copy the essential keys present in `inputs`
in priority order, stopping once 10 properties are reached. -/
def trimLoop (inputs : List (String × String)) :
    List String → List (String × String) → List (String × String)
  | [], acc => acc
  | k :: ks, acc =>
    match getVal inputs k with
    | some v =>
      let acc2 := acc ++ [(k, v)]
      if acc2.length ≥ 10 then acc2 else trimLoop inputs ks acc2
    | none => trimLoop inputs ks acc

/-- Step 7 (source lines 524-555): trim the inputs to at most 10
properties when they exceed 10, using the fixed priority list. -/
def trimInputs (inputs : List (String × String)) : List (String × String) :=
  if (keysOf inputs).length > 10 then trimLoop inputs essentialKeys []
  else inputs

/-- Step 8 (source lines 560-629): interpret the dispatch outcome.
Success echoes the final inputs and resolved target; a non-2xx response
surfaces the upstream status with the JSON body when parseable, else the
text, else a fixed placeholder. -/
def dispatchResponse (event : String) (inputs : List (String × String))
    (owner name workflowFilename workflowBranch sourceRepoBranch now2 : String)
    (dko : DispatchOutcome) : Response :=
  match dko with
  | .networkError msg =>
    ⟨500, [("error", Json.str "Network error"), ("message", Json.str msg)]⟩
  | .ok =>
    ⟨200, [("message", Json.str "Workflow triggered successfully"),
           ("event", Json.str event),
           ("inputs", Json.obj (inputs.map (fun kv => (kv.1, Json.str kv.2)))),
           ("automation_repo", Json.str (owner ++ "/" ++ name)),
           ("workflow_filename", Json.str workflowFilename),
           ("workflow_branch", Json.str workflowBranch),
           ("source_branch", Json.str sourceRepoBranch),
           ("timestamp", Json.str now2)]⟩
  | .httpError status jsonBody textBody =>
    let errorText :=
      match jsonBody with
      | some j => Json.stringify j
      | none => textBody.getD "Could not read error response"
    let details :=
      match jsonBody with
      | some j => if jsTruthyJson j then j else Json.str errorText
      | none => Json.str errorText
    ⟨500, [("error", Json.str "Failed to trigger workflow"),
           ("status", Json.nat status),
           ("details", details)]⟩

/-- The full handler (source lines 195-629): sequential composition of
the phases, accumulating the outbound calls that were issued. -/
def serve (cfg : Config) (req : Request) (now now2 : String)
    (fo : FetchOutcome) (dko : DispatchOutcome) : HandlerResult :=
  match validateEvent req with
  | .error r => ⟨r, []⟩
  | .ok event =>
    match validateConfig cfg with
    | .error r => ⟨r, []⟩
    | .ok (owner, name) =>
      match parsePayload req with
      | .error r => ⟨r, []⟩
      | .ok payload =>
        let fetchCall := OutboundCall.fetchRepoMetadata owner name
        match fetchDefaultBranch fo with
        | .error r => ⟨r, [fetchCall]⟩
        | .ok workflowBranch =>
          let inputs0 := baseInputs event now payload
          match resolveWorkflow cfg.workflowMappings (repositoryFullNameOf payload) with
          | .error r => ⟨r, [fetchCall]⟩
          | .ok workflowFilename =>
            match normalizeEvent event payload inputs0 with
            | .error r => ⟨r, [fetchCall]⟩
            | .ok (inputs1, sourceRepoBranch) =>
              match branchCheck inputs1 event payload with
              | .error r => ⟨r, [fetchCall]⟩
              | .ok _ =>
                let finalInputs := trimInputs inputs1
                ⟨dispatchResponse event finalInputs owner name workflowFilename
                    workflowBranch sourceRepoBranch now2 dko,
                 [fetchCall,
                  OutboundCall.dispatchWorkflow owner name workflowFilename
                    workflowBranch finalInputs]⟩

/-- The catch-all error translator (source lines 630-646): an unexpected
exception (message and stack present when it was an Error object) becomes
a 500 whose `stack` field is emitted only when ENVIRONMENT is
"development" (JSON.stringify drops the undefined field otherwise). -/
def catchAllResponse (cfg : Config) (err : Option (String × Option String)) : Response :=
  let errorMessage := match err with | some (m, _) => m | none => "Unknown error occurred"
  let errorStack : Option String := match err with | some (_, st) => st | none => none
  ⟨500, [("error", Json.str "Server error"), ("message", Json.str errorMessage)] ++
        (if cfg.environment = some "development" then
           match errorStack with
           | some st => [("stack", Json.str st)]
           | none => []
         else [])⟩

/-- Stack component of a caught exception value. -/
def errStackOf : Option (String × Option String) → Option String
  | some (_, st) => st
  | none => none

/-! ### Concrete example data -/

/-- A fully valid configuration with a two-repository mapping. -/
def cfgStd : Config :=
  ⟨some "tok", some "own", some "anam", some "acme/app:ci.yml,acme/site:deploy.yml", none⟩

/-- A push payload whose ref is a tag, not a branch ref. -/
def payloadPushTag : Payload :=
  ⟨some (some "acme/app"), none, none, some "refs/tags/v1.0", some "alice",
   some "abc123", none, none, none, none, none⟩

/-- A well-formed push payload on refs/heads/main. -/
def payloadPushMain : Payload :=
  ⟨some (some "acme/app"), none, none, some "refs/heads/main", some "alice",
   some "abc123", none, none, none, none, none⟩

/-- A push payload from a repository that is not in the mapping. -/
def payloadOtherRepo : Payload :=
  ⟨some (some "other/repo"), none, none, some "refs/heads/main", none,
   none, none, none, none, none, none⟩

/-- A pull_request payload with the non-build-triggering action "labeled". -/
def payloadPRLabeled : Payload :=
  ⟨some (some "acme/app"), some (some "bob"), none, none, none, none, none, none,
   some "labeled", some 7, some ⟨some "feat", some "bob", some "Add", some "u", some "main"⟩⟩

/-! ### Helper lemmas: strings -/

theorem isPrefixOf_append_self (l₁ l₂ : List Char) :
    List.isPrefixOf l₁ (l₁ ++ l₂) = true := by
  induction l₁ with
  | nil => simp [List.isPrefixOf]
  | cons c cs ih => simp [List.isPrefixOf, ih]

theorem drop_length_append (l₁ l₂ : List Char) :
    List.drop l₁.length (l₁ ++ l₂) = l₂ := by
  induction l₁ with
  | nil => rfl
  | cons c cs ih => simp only [List.cons_append, List.length_cons, List.drop_succ_cons]; exact ih

theorem replaceFirstL_append (pat rep rest : List Char) (h : pat ≠ []) :
    replaceFirstL pat rep (pat ++ rest) = rep ++ rest := by
  match pat with
  | [] => exact absurd rfl h
  | c :: cs =>
    show replaceFirstL (c :: cs) rep (c :: (cs ++ rest)) = rep ++ rest
    rw [replaceFirstL]
    have hp : List.isPrefixOf (c :: cs) (c :: (cs ++ rest)) = true := by
      have h1 := isPrefixOf_append_self (c :: cs) rest
      rw [List.cons_append] at h1
      exact h1
    rw [if_pos hp]
    have hd : List.drop (c :: cs).length (c :: (cs ++ rest)) = rest := by
      have h1 := drop_length_append (c :: cs) rest
      rw [List.cons_append] at h1
      exact h1
    rw [hd]

/-- Stripping the refs/heads/ prefix: for a ref of the well-formed shape,
the JS replace removes exactly the prefix. -/
theorem jsReplaceFirst_strip (b : String) :
    jsReplaceFirst ("refs/heads/" ++ b) "refs/heads/" "" = b := by
  unfold jsReplaceFirst
  rw [String.data_append]
  rw [replaceFirstL_append _ _ _ (by decide)]
  rfl

/-! ### Helper lemmas: records -/

theorem getVal_setVal_self (r : List (String × String)) (k v : String) :
    getVal (setVal r k v) k = some v := by
  induction r with
  | nil => simp [setVal, getVal]
  | cons p r ih =>
    obtain ⟨k0, v0⟩ := p
    by_cases h : k0 = k
    · simp [setVal, h, getVal]
    · simp [setVal, h, getVal, ih]

theorem getVal_setVal_ne (r : List (String × String)) (k k' v : String) (h : k' ≠ k) :
    getVal (setVal r k' v) k = getVal r k := by
  induction r with
  | nil => simp [setVal, getVal, h]
  | cons p r ih =>
    obtain ⟨k0, v0⟩ := p
    by_cases h0 : k0 = k'
    · simp [setVal, h0, getVal, h]
    · simp [setVal, h0, getVal, ih]

theorem getVal_append_some (r l : List (String × String)) (key v : String)
    (h : getVal r key = some v) : getVal (r ++ l) key = some v := by
  induction r with
  | nil => simp [getVal] at h
  | cons p r ih =>
    obtain ⟨k0, v0⟩ := p
    by_cases h0 : k0 = key
    · simp [getVal, h0] at h ⊢; exact h
    · simp [getVal, h0] at h ⊢; exact ih h

theorem getVal_append_one_ne (r : List (String × String)) (key k w : String)
    (h : getVal r key = none) (hne : k ≠ key) :
    getVal (r ++ [(k, w)]) key = none := by
  induction r with
  | nil => simp [getVal, hne]
  | cons p r ih =>
    obtain ⟨k0, v0⟩ := p
    by_cases h0 : k0 = key
    · simp [getVal, h0] at h
    · simp [getVal, h0] at h ⊢; exact ih h

theorem getVal_append_one_self (r : List (String × String)) (key v : String)
    (h : getVal r key = none) :
    getVal (r ++ [(key, v)]) key = some v := by
  induction r with
  | nil => simp [getVal]
  | cons p r ih =>
    obtain ⟨k0, v0⟩ := p
    by_cases h0 : k0 = key
    · simp [getVal, h0] at h
    · simp [getVal, h0] at h ⊢; exact ih h

theorem keysOf_append (a b : List (String × String)) :
    keysOf (a ++ b) = keysOf a ++ keysOf b := by
  simp [keysOf]

/-! ### Helper lemmas: the trimming loop -/

theorem trimLoop_length_le (inputs : List (String × String)) :
    ∀ (ks : List String) (acc : List (String × String)),
      acc.length < 10 → (trimLoop inputs ks acc).length ≤ 10 := by
  intro ks
  induction ks with
  | nil => intro acc h; simpa [trimLoop] using Nat.le_of_lt h
  | cons k ks ih =>
    intro acc h
    rw [trimLoop]
    cases hv : getVal inputs k with
    | some v =>
      simp only []
      by_cases hb : (acc ++ [(k, v)]).length ≥ 10
      · rw [if_pos hb]
        simp only [List.length_append, List.length_cons, List.length_nil]
        omega
      · rw [if_neg hb]
        exact ih _ (by omega)
    | none => exact ih _ h

theorem trimLoop_preserve (inputs : List (String × String)) (key v : String) :
    ∀ (ks : List String) (acc : List (String × String)),
      getVal acc key = some v →
      getVal (trimLoop inputs ks acc) key = some v := by
  intro ks
  induction ks with
  | nil => intro acc h; simpa [trimLoop] using h
  | cons k ks ih =>
    intro acc h
    rw [trimLoop]
    cases hv : getVal inputs k with
    | some w =>
      simp only []
      by_cases hb : (acc ++ [(k, w)]).length ≥ 10
      · rw [if_pos hb]; exact getVal_append_some _ _ _ _ h
      · rw [if_neg hb]; exact ih _ (getVal_append_some _ _ _ _ h)
    | none => exact ih _ h

theorem trimLoop_reaches (inputs : List (String × String)) (key v : String)
    (hv : getVal inputs key = some v) :
    ∀ (ks₁ ks₂ : List String) (acc : List (String × String)),
      key ∉ ks₁ → acc.length + ks₁.length < 10 → getVal acc key = none →
      getVal (trimLoop inputs (ks₁ ++ key :: ks₂) acc) key = some v := by
  intro ks₁
  induction ks₁ with
  | nil =>
    intro ks₂ acc _ _ hnone
    rw [List.nil_append, trimLoop, hv]
    simp only []
    have hacc2 : getVal (acc ++ [(key, v)]) key = some v :=
      getVal_append_one_self _ _ _ hnone
    by_cases hb : (acc ++ [(key, v)]).length ≥ 10
    · rw [if_pos hb]; exact hacc2
    · rw [if_neg hb]; exact trimLoop_preserve _ _ _ _ _ hacc2
  | cons k ks₁ ih =>
    intro ks₂ acc hnotin hlen hnone
    have hkne : k ≠ key := fun h => hnotin (h ▸ List.mem_cons_self k ks₁)
    have hnotin' : key ∉ ks₁ := fun h => hnotin (List.mem_cons_of_mem _ h)
    rw [List.cons_append, trimLoop]
    cases hw : getVal inputs k with
    | some w =>
      simp only []
      have hlt : (acc ++ [(k, w)]).length < 10 := by
        simp only [List.length_append, List.length_cons, List.length_nil]
        simp only [List.length_cons] at hlen
        omega
      rw [if_neg (by omega)]
      exact ih ks₂ _ hnotin'
        (by simp only [List.length_append, List.length_cons, List.length_nil] at *; omega)
        (getVal_append_one_ne _ _ _ _ hnone hkne)
    | none =>
      exact ih ks₂ _ hnotin' (by simp only [List.length_cons] at hlen; omega) hnone

/-- Trimming never loses the `branch` input: it sits at priority
position 5 of the 10-entry list, so the 10-property stop cannot fire
before it is copied. -/
theorem getVal_trimInputs_branch (inputs : List (String × String)) (v : String)
    (h : getVal inputs "branch" = some v) :
    getVal (trimInputs inputs) "branch" = some v := by
  unfold trimInputs
  by_cases hlen : (keysOf inputs).length > 10
  · rw [if_pos hlen]
    have : essentialKeys =
        ["event_type", "timestamp", "repository", "sender"] ++
          "branch" :: ["author", "commit_sha", "pr_number", "pr_title", "target_branch"] := rfl
    rw [this]
    exact trimLoop_reaches inputs "branch" v h _ _ [] (by decide) (by decide) rfl
  · rw [if_neg hlen]; exact h

theorem trimLoop_keys_sublist (inputs : List (String × String)) :
    ∀ (ks : List String) (acc : List (String × String)),
      ∃ l, keysOf (trimLoop inputs ks acc) = keysOf acc ++ l ∧ l.Sublist ks := by
  intro ks
  induction ks with
  | nil => intro acc; exact ⟨[], by simp [trimLoop], List.Sublist.refl _⟩
  | cons k ks ih =>
    intro acc
    rw [trimLoop]
    cases hv : getVal inputs k with
    | some v =>
      simp only []
      by_cases hb : (acc ++ [(k, v)]).length ≥ 10
      · rw [if_pos hb]
        exact ⟨[k], by simp [keysOf], (List.nil_sublist ks).cons₂ k⟩
      · rw [if_neg hb]
        obtain ⟨l, hl, hs⟩ := ih (acc ++ [(k, v)])
        refine ⟨k :: l, ?_, hs.cons₂ k⟩
        rw [hl, keysOf_append]
        simp [keysOf]
    | none =>
      obtain ⟨l, hl, hs⟩ := ih acc
      exact ⟨l, hl, hs.cons k⟩

/-! ### Helper lemmas: unfolding the handler pipeline -/

theorem serve_steps (cfg : Config) (req : Request) (now now2 : String)
    (fo : FetchOutcome) (dko : DispatchOutcome)
    (ev o n : String) (p : Payload) (wb wf : String)
    (h1 : validateEvent req = .ok ev) (h2 : validateConfig cfg = .ok (o, n))
    (h3 : parsePayload req = .ok p) (h4 : fetchDefaultBranch fo = .ok wb)
    (h5 : resolveWorkflow cfg.workflowMappings (repositoryFullNameOf p) = .ok wf) :
    serve cfg req now now2 fo dko =
      (match normalizeEvent ev p (baseInputs ev now p) with
       | .error r => ⟨r, [.fetchRepoMetadata o n]⟩
       | .ok (inputs1, sb) =>
         match branchCheck inputs1 ev p with
         | .error r => ⟨r, [.fetchRepoMetadata o n]⟩
         | .ok _ =>
           ⟨dispatchResponse ev (trimInputs inputs1) o n wf wb sb now2 dko,
            [.fetchRepoMetadata o n,
             .dispatchWorkflow o n wf wb (trimInputs inputs1)]⟩) := by
  unfold serve
  simp only [h1, h2, h3, h4, h5]

theorem serve_early (cfg : Config) (req : Request) (now now2 : String)
    (fo : FetchOutcome) (dko : DispatchOutcome) (r : Response)
    (h : validateEvent req = .error r ∨
         (∃ ev, validateEvent req = .ok ev ∧ validateConfig cfg = .error r) ∨
         (∃ ev o n, validateEvent req = .ok ev ∧ validateConfig cfg = .ok (o, n) ∧
            parsePayload req = .error r)) :
    serve cfg req now now2 fo dko = ⟨r, []⟩ := by
  unfold serve
  rcases h with h | ⟨ev, h1, h2⟩ | ⟨ev, o, n, h1, h2, h3⟩
  · rw [h]
  · rw [h1, h2]
  · rw [h1, h2, h3]

theorem serve_fetch_error (cfg : Config) (req : Request) (now now2 : String)
    (fo : FetchOutcome) (dko : DispatchOutcome)
    (ev o n : String) (p : Payload) (r : Response)
    (h1 : validateEvent req = .ok ev) (h2 : validateConfig cfg = .ok (o, n))
    (h3 : parsePayload req = .ok p) (h4 : fetchDefaultBranch fo = .error r) :
    serve cfg req now now2 fo dko = ⟨r, [.fetchRepoMetadata o n]⟩ := by
  unfold serve
  simp only [h1, h2, h3, h4]

theorem serve_resolve_error (cfg : Config) (req : Request) (now now2 : String)
    (fo : FetchOutcome) (dko : DispatchOutcome)
    (ev o n : String) (p : Payload) (wb : String) (r : Response)
    (h1 : validateEvent req = .ok ev) (h2 : validateConfig cfg = .ok (o, n))
    (h3 : parsePayload req = .ok p) (h4 : fetchDefaultBranch fo = .ok wb)
    (h5 : resolveWorkflow cfg.workflowMappings (repositoryFullNameOf p) = .error r) :
    serve cfg req now now2 fo dko = ⟨r, [.fetchRepoMetadata o n]⟩ := by
  unfold serve
  simp only [h1, h2, h3, h4, h5]

theorem validateEvent_ok_of (req : Request) (k : String)
    (h : req.eventHeader = some k) (hk : k ≠ "") : validateEvent req = .ok k := by
  simp [validateEvent, optTruthy, strTruthy, h, hk]

theorem parsePayload_ok_of (req : Request) (p : Payload)
    (h : req.body = some p) : parsePayload req = .ok p := by
  simp [parsePayload, h]

theorem fetchDefaultBranch_error_status (fo : FetchOutcome) (r : Response)
    (h : fetchDefaultBranch fo = .error r) : r.status = 500 := by
  unfold fetchDefaultBranch at h
  split at h
  · cases h; rfl
  · cases h; rfl
  · split at h
    · cases h; rfl
    · cases h

theorem getVal_none_of_not_mem (r : List (String × String)) (key : String)
    (h : key ∉ keysOf r) : getVal r key = none := by
  induction r with
  | nil => rfl
  | cons q r ih =>
    obtain ⟨k0, v0⟩ := q
    have h1 : ¬ (key = k0 ∨ key ∈ keysOf r) := by
      intro hc
      apply h
      simp only [keysOf, List.map_cons, List.mem_cons]
      exact hc
    rw [getVal, if_neg (fun he => h1 (Or.inl he.symm))]
    exact ih (fun hm => h1 (Or.inr hm))

/-! ### Helper lemmas: the normalizer branches -/

theorem normalizeEvent_other (k : String) (p : Payload) (inputs : List (String × String))
    (hk1 : k ≠ "push") (hk2 : k ≠ "pull_request") :
    normalizeEvent k p inputs =
      .error ⟨200, [("message", Json.str ("Ignored event: " ++ k))]⟩ := by
  unfold normalizeEvent
  rw [if_neg hk1, if_neg hk2]

theorem normalizeEvent_pr_nontrigger (p : Payload) (inputs : List (String × String))
    (a : String) (pr : PullRequestObj)
    (ha : p.action = some a) (hane : a ≠ "")
    (hnt : a ∉ buildTriggeringActions) (hpr : p.pull_request = some pr) :
    normalizeEvent "pull_request" p inputs =
      .error ⟨200, [("message", Json.str ("PR action '" ++ a ++ "' doesn't trigger a build"))] ++
                   (match p.number with
                    | some num => [("pr_number", Json.nat num)]
                    | none => []) ++
                   [("pr_action", Json.str a)]⟩ := by
  unfold normalizeEvent
  rw [if_neg (by decide : ¬ (("pull_request" : String) = "push"))]
  rw [if_pos (rfl : ("pull_request" : String) = "pull_request")]
  have htr : optTruthy p.action = true := by simp [ha, optTruthy, strTruthy, hane]
  rw [if_neg (by simp [htr])]
  rw [hpr]
  simp only [ha, Option.getD_some]
  rw [if_pos (by simpa using hnt)]

theorem normalizeEvent_push_noref (p : Payload) (inputs : List (String × String))
    (hdel : p.deleted ≠ some true) (href : optTruthy p.ref = false) :
    normalizeEvent "push" p inputs =
      .error ⟨400, [("error", Json.str "Invalid push event payload: missing ref")]⟩ := by
  unfold normalizeEvent
  rw [if_pos (rfl : ("push" : String) = "push"), if_neg hdel]
  rw [if_pos (by simp [href])]

theorem normalizeEvent_push_emptybranch (p : Payload) (inputs : List (String × String))
    (r : String) (hdel : p.deleted ≠ some true) (href : p.ref = some r) (hr : r ≠ "")
    (hb : jsReplaceFirst r "refs/heads/" "" = "") :
    normalizeEvent "push" p inputs =
      .error ⟨400, [("error", Json.str "Invalid branch reference format")]⟩ := by
  unfold normalizeEvent
  rw [if_pos (rfl : ("push" : String) = "push"), if_neg hdel]
  have htr : optTruthy p.ref = true := by simp [href, optTruthy, strTruthy, hr]
  rw [if_neg (by simp [htr])]
  simp [href, hb]

theorem normalizeEvent_push_ok (p : Payload) (inputs : List (String × String))
    (r b : String) (hdel : p.deleted ≠ some true) (href : p.ref = some r) (hr : r ≠ "")
    (hb : jsReplaceFirst r "refs/heads/" "" = b) (hbne : b ≠ "") :
    normalizeEvent "push" p inputs =
      .ok (setVal (setVal (setVal (setVal (setVal inputs
             "branch" b)
             "author" (jsOrStr p.pusher_name "Unknown"))
             "commit_sha" (jsOrStr p.after ""))
             "commit_message" (jsOrStr p.head_commit_message ""))
             "commit_url" (jsOrStr p.head_commit_url ""),
           b) := by
  unfold normalizeEvent
  rw [if_pos (rfl : ("push" : String) = "push"), if_neg hdel]
  have htr : optTruthy p.ref = true := by simp [href, optTruthy, strTruthy, hr]
  rw [if_neg (by simp [htr])]
  simp only [href, Option.getD_some, hb]
  rw [if_neg hbne]

theorem branchCheck_ok (inputs : List (String × String)) (event : String) (p : Payload)
    (h : optTruthy (getVal inputs "branch") = true) :
    branchCheck inputs event p = .ok () := by
  unfold branchCheck
  rw [if_neg (by simp [h])]

/-! ### Helper lemmas: mapping resolution -/

theorem resolveWorkflow_notconfigured (m repo : String) (hm : m ≠ "")
    (hz : (keysOf (parseWorkflowMappings m)).length ≠ 0)
    (hl : getVal (parseWorkflowMappings m) repo = none) :
    resolveWorkflow (some m) repo =
      .error ⟨400, [("error", Json.str "Repository not configured"),
                    ("message", Json.str ("No workflow mapping found for repository: " ++ repo)),
                    ("available_repositories",
                     Json.arr ((keysOf (parseWorkflowMappings m)).map Json.str))]⟩ := by
  unfold resolveWorkflow
  have htr : optTruthy (some m) = true := by simp [optTruthy, strTruthy, hm]
  rw [if_neg (by simp [htr])]
  simp only [Option.getD_some]
  rw [if_neg hz]
  rw [if_neg (by simp [hl, optTruthy])]

theorem resolveWorkflow_missing (wmOpt : Option String) (repo : String)
    (h : optTruthy wmOpt = false ∨
         (keysOf (parseWorkflowMappings (wmOpt.getD ""))).length = 0) :
    ∃ r, resolveWorkflow wmOpt repo = .error r ∧ r.status = 500 := by
  unfold resolveWorkflow
  by_cases h1 : optTruthy wmOpt = true
  · rcases h with h | h
    · rw [h1] at h; exact absurd h (by simp)
    · rw [if_neg (by simp [h1]), if_pos h]
      exact ⟨_, rfl, rfl⟩
  · rw [if_pos (by simpa using h1)]
    exact ⟨_, rfl, rfl⟩

/-! ### Helper lemmas: no response of the main pipeline carries a stack field -/

theorem noStack_validateEvent (req : Request) (r : Response)
    (h : validateEvent req = .error r) : hasField r "stack" = false := by
  unfold validateEvent at h
  split at h
  · simp at h
  · simp only [Except.error.injEq] at h; subst h; rfl

theorem noStack_validateConfig (cfg : Config) (r : Response)
    (h : validateConfig cfg = .error r) : hasField r "stack" = false := by
  unfold validateConfig at h
  split at h
  · simp only [Except.error.injEq] at h; subst h; rfl
  · split at h
    · simp only [Except.error.injEq] at h; subst h; rfl
    · simp at h

theorem noStack_parsePayload (req : Request) (r : Response)
    (h : parsePayload req = .error r) : hasField r "stack" = false := by
  unfold parsePayload at h
  split at h
  · simp only [Except.error.injEq] at h; subst h; rfl
  · simp at h

theorem noStack_fetchDefaultBranch (fo : FetchOutcome) (r : Response)
    (h : fetchDefaultBranch fo = .error r) : hasField r "stack" = false := by
  unfold fetchDefaultBranch at h
  split at h
  · simp only [Except.error.injEq] at h; subst h; rfl
  · simp only [Except.error.injEq] at h; subst h; rfl
  · split at h
    · simp only [Except.error.injEq] at h; subst h; rfl
    · simp at h

theorem noStack_resolveWorkflow (wmOpt : Option String) (repo : String) (r : Response)
    (h : resolveWorkflow wmOpt repo = .error r) : hasField r "stack" = false := by
  unfold resolveWorkflow at h
  split at h
  · simp only [Except.error.injEq] at h; subst h; rfl
  · simp only [] at h
    split at h
    · simp only [Except.error.injEq] at h; subst h; rfl
    · split at h
      · split at h
        · simp only [Except.error.injEq] at h; subst h; rfl
        · simp at h
      · simp only [Except.error.injEq] at h; subst h; rfl

theorem noStack_normalizeEvent (event : String) (p : Payload)
    (inputs : List (String × String)) (r : Response)
    (h : normalizeEvent event p inputs = .error r) : hasField r "stack" = false := by
  unfold normalizeEvent at h
  split at h
  · split at h
    · simp only [Except.error.injEq] at h; subst h; rfl
    · split at h
      · simp only [Except.error.injEq] at h; subst h; rfl
      · simp only [] at h
        split at h
        · simp only [Except.error.injEq] at h; subst h; rfl
        · simp at h
  · split at h
    · split at h
      · simp only [Except.error.injEq] at h; subst h; rfl
      · split at h
        · simp only [Except.error.injEq] at h; subst h; rfl
        · simp only [] at h
          split at h
          · simp only [Except.error.injEq] at h; subst h
            cases p.number <;> rfl
          · split at h
            · simp only [Except.error.injEq] at h; subst h; rfl
            · simp at h
    · simp only [Except.error.injEq] at h; subst h; rfl

theorem noStack_branchCheck (inputs : List (String × String)) (event : String)
    (p : Payload) (r : Response)
    (h : branchCheck inputs event p = .error r) : hasField r "stack" = false := by
  unfold branchCheck at h
  split at h
  · simp only [Except.error.injEq] at h; subst h; rfl
  · simp at h

theorem noStack_dispatchResponse (event : String) (inputs : List (String × String))
    (owner name wf wb sb now2 : String) (dko : DispatchOutcome) :
    hasField (dispatchResponse event inputs owner name wf wb sb now2 dko) "stack" = false := by
  cases dko <;> rfl

theorem serve_no_stack (cfg : Config) (req : Request) (now now2 : String)
    (fo : FetchOutcome) (dko : DispatchOutcome) :
    hasField (serve cfg req now now2 fo dko).response "stack" = false := by
  unfold serve
  split
  next r heq => exact noStack_validateEvent _ _ heq
  next ev heq =>
    split
    next r heq2 => exact noStack_validateConfig _ _ heq2
    next o n heq2 =>
      split
      next r heq3 => exact noStack_parsePayload _ _ heq3
      next p heq3 =>
        split
        next r heq4 => exact noStack_fetchDefaultBranch _ _ heq4
        next wb heq4 =>
          split
          next r heq5 => exact noStack_resolveWorkflow _ _ _ heq5
          next wf heq5 =>
            simp only []
            split
            next r heq6 => exact noStack_normalizeEvent _ _ _ _ heq6
            next i1 sb heq6 =>
              split
              next r heq7 => exact noStack_branchCheck _ _ _ _ heq7
              next u heq7 => exact noStack_dispatchResponse _ _ _ _ _ _ _ _ _

/-- An input record with eleven distinct keys, as a pull_request event
with repository and sender present produces. -/
def inputsEleven : List (String × String) :=
  [("event_type", "pull_request"), ("timestamp", "T"), ("repository", "acme/app"),
   ("sender", "bob"), ("branch", "feat"), ("pr_number", "7"), ("pr_action", "opened"),
   ("author", "bob"), ("pr_title", "Add"), ("pr_url", "u"), ("target_branch", "main")]

/-! ### Claim theorems -/

/-- C4: for every inbound request missing the event-kind header, the
handler returns 400 with an error field and issues no outbound call. -/
theorem C4_missing_header_no_calls (cfg : Config) (req : Request) (now now2 : String)
    (fo : FetchOutcome) (dko : DispatchOutcome)
    (h : optTruthy req.eventHeader = false) :
    (serve cfg req now now2 fo dko).response.status = 400 ∧
    hasField (serve cfg req now now2 fo dko).response "error" = true ∧
    (serve cfg req now now2 fo dko).calls = [] := by
  have hv : validateEvent req =
      .error ⟨400, [("error", Json.str "Missing GitHub event header")]⟩ := by
    unfold validateEvent
    rw [if_neg (by simp [h])]
  rw [serve_early cfg req now now2 fo dko _ (Or.inl hv)]
  exact ⟨rfl, rfl, rfl⟩

/-- Witness for C4: a concrete request without the header. -/
theorem C4_witness :
    optTruthy (Request.mk none none).eventHeader = false ∧
    ((serve cfgStd ⟨none, none⟩ "T1" "T2" (.ok (some "main")) .ok).response.status = 400 ∧
     hasField (serve cfgStd ⟨none, none⟩ "T1" "T2" (.ok (some "main")) .ok).response "error" = true ∧
     (serve cfgStd ⟨none, none⟩ "T1" "T2" (.ok (some "main")) .ok).calls = []) :=
  ⟨rfl, C4_missing_header_no_calls cfgStd ⟨none, none⟩ "T1" "T2" (.ok (some "main")) .ok rfl⟩

/-- C2: whenever the assembled inputs exceed 10 entries, the trimmed
inputs have at most 10 entries, their keys are drawn from the fixed
priority list in its order (keys outside the list are dropped), and the
selection is the deterministic priority-order filter. -/
theorem C2_trim_caps (inputs : List (String × String))
    (h : (keysOf inputs).length > 10) :
    (keysOf (trimInputs inputs)).length ≤ 10 ∧
    (keysOf (trimInputs inputs)).Sublist essentialKeys ∧
    ∀ k ∈ keysOf (trimInputs inputs), k ∈ essentialKeys := by
  have ht : trimInputs inputs = trimLoop inputs essentialKeys [] := by
    unfold trimInputs; rw [if_pos h]
  have hlen : (trimLoop inputs essentialKeys []).length ≤ 10 :=
    trimLoop_length_le inputs essentialKeys [] (by norm_num)
  obtain ⟨l, hl, hs⟩ := trimLoop_keys_sublist inputs essentialKeys []
  have hkeys : keysOf (trimLoop inputs essentialKeys []) = l := by
    simpa [keysOf] using hl
  refine ⟨?_, ?_, ?_⟩
  · rw [ht]
    simpa [keysOf] using hlen
  · rw [ht, hkeys]; exact hs
  · rw [ht, hkeys]; intro k hk; exact hs.subset hk

/-- Witness for C2: the eleven-key pull_request input set is trimmed. -/
theorem C2_witness :
    10 < (keysOf inputsEleven).length ∧
    ((keysOf (trimInputs inputsEleven)).length ≤ 10 ∧
     (keysOf (trimInputs inputsEleven)).Sublist essentialKeys ∧
     ∀ k ∈ keysOf (trimInputs inputsEleven), k ∈ essentialKeys) :=
  ⟨by decide, C2_trim_caps inputsEleven (by decide)⟩

/-- C3: a pull_request payload with present action and pull_request
object whose action is outside the allow-list short-circuits with 200 and
no dispatch call (given the stages before the event branch succeed). -/
theorem C3_pr_nontrigger (cfg : Config) (req : Request) (now now2 : String)
    (fo : FetchOutcome) (dko : DispatchOutcome)
    (o n : String) (p : Payload) (wb wf a : String) (pr : PullRequestObj)
    (hev : req.eventHeader = some "pull_request")
    (h2 : validateConfig cfg = .ok (o, n))
    (h3 : req.body = some p)
    (h4 : fetchDefaultBranch fo = .ok wb)
    (h5 : resolveWorkflow cfg.workflowMappings (repositoryFullNameOf p) = .ok wf)
    (ha : p.action = some a) (hane : a ≠ "")
    (hnt : a ∉ buildTriggeringActions)
    (hpr : p.pull_request = some pr) :
    (serve cfg req now now2 fo dko).response.status = 200 ∧
    (serve cfg req now now2 fo dko).calls = [.fetchRepoMetadata o n] ∧
    ∀ c ∈ (serve cfg req now now2 fo dko).calls, isDispatch c = false := by
  have h1 : validateEvent req = .ok "pull_request" :=
    validateEvent_ok_of _ _ hev (by decide)
  rw [serve_steps cfg req now now2 fo dko _ o n p wb wf h1 h2
      (parsePayload_ok_of _ _ h3) h4 h5]
  rw [normalizeEvent_pr_nontrigger p _ a pr ha hane hnt hpr]
  refine ⟨rfl, rfl, ?_⟩
  intro c hc
  simp only [List.mem_singleton] at hc
  subst hc
  rfl

/-- Witness for C3: the "labeled" action at a fully valid configuration. -/
theorem C3_witness :
    (serve cfgStd ⟨some "pull_request", some payloadPRLabeled⟩ "T1" "T2"
        (.ok (some "main")) .ok).response.status = 200 ∧
    (serve cfgStd ⟨some "pull_request", some payloadPRLabeled⟩ "T1" "T2"
        (.ok (some "main")) .ok).calls = [.fetchRepoMetadata "own" "anam"] ∧
    ∀ c ∈ (serve cfgStd ⟨some "pull_request", some payloadPRLabeled⟩ "T1" "T2"
        (.ok (some "main")) .ok).calls, isDispatch c = false :=
  C3_pr_nontrigger cfgStd ⟨some "pull_request", some payloadPRLabeled⟩ "T1" "T2"
    (.ok (some "main")) .ok "own" "anam" payloadPRLabeled "main" "ci.yml" "labeled"
    ⟨some "feat", some "bob", some "Add", some "u", some "main"⟩
    rfl rfl rfl rfl rfl rfl (by decide) (by decide) rfl

/-- C5: an event kind other than push and pull_request yields the
"Ignored event" 200 success and no dispatch call (given the stages before
the event branch succeed). -/
theorem C5_ignored_event (cfg : Config) (req : Request) (now now2 : String)
    (fo : FetchOutcome) (dko : DispatchOutcome)
    (k o n : String) (p : Payload) (wb wf : String)
    (hev : req.eventHeader = some k) (hk : k ≠ "")
    (hk1 : k ≠ "push") (hk2 : k ≠ "pull_request")
    (h2 : validateConfig cfg = .ok (o, n)) (h3 : req.body = some p)
    (h4 : fetchDefaultBranch fo = .ok wb)
    (h5 : resolveWorkflow cfg.workflowMappings (repositoryFullNameOf p) = .ok wf) :
    (serve cfg req now now2 fo dko).response =
      ⟨200, [("message", Json.str ("Ignored event: " ++ k))]⟩ ∧
    (serve cfg req now now2 fo dko).calls = [.fetchRepoMetadata o n] ∧
    ∀ c ∈ (serve cfg req now now2 fo dko).calls, isDispatch c = false := by
  have h1 := validateEvent_ok_of _ _ hev hk
  rw [serve_steps cfg req now now2 fo dko _ o n p wb wf h1 h2
      (parsePayload_ok_of _ _ h3) h4 h5]
  rw [normalizeEvent_other k p _ hk1 hk2]
  refine ⟨rfl, rfl, ?_⟩
  intro c hc
  simp only [List.mem_singleton] at hc
  subst hc
  rfl

/-- Witness for C5: the "issues" event kind. -/
theorem C5_witness :
    (serve cfgStd ⟨some "issues", some payloadPushMain⟩ "T1" "T2"
        (.ok (some "main")) .ok).response =
      ⟨200, [("message", Json.str ("Ignored event: " ++ "issues"))]⟩ ∧
    (serve cfgStd ⟨some "issues", some payloadPushMain⟩ "T1" "T2"
        (.ok (some "main")) .ok).calls = [.fetchRepoMetadata "own" "anam"] ∧
    ∀ c ∈ (serve cfgStd ⟨some "issues", some payloadPushMain⟩ "T1" "T2"
        (.ok (some "main")) .ok).calls, isDispatch c = false :=
  C5_ignored_event cfgStd ⟨some "issues", some payloadPushMain⟩ "T1" "T2"
    (.ok (some "main")) .ok "issues" "own" "anam" payloadPushMain "main" "ci.yml"
    rfl (by decide) (by decide) (by decide) rfl rfl rfl rfl

/-- C6: parsing "acme/app:ci.yml,acme/site:deploy.yml" resolves
"acme/site" to "deploy.yml", and any repository absent from the parsed
mapping makes the handler answer 400 enumerating exactly the two known
repository keys. -/
theorem C6_mapping_roundtrip (cfg : Config) (req : Request) (now now2 : String)
    (fo : FetchOutcome) (dko : DispatchOutcome)
    (k o n : String) (p : Payload) (wb : String)
    (h1 : validateEvent req = .ok k) (h2 : validateConfig cfg = .ok (o, n))
    (h3 : parsePayload req = .ok p) (h4 : fetchDefaultBranch fo = .ok wb)
    (hm : cfg.workflowMappings = some "acme/app:ci.yml,acme/site:deploy.yml")
    (hrepo : repositoryFullNameOf p ∉
      keysOf (parseWorkflowMappings "acme/app:ci.yml,acme/site:deploy.yml")) :
    getVal (parseWorkflowMappings "acme/app:ci.yml,acme/site:deploy.yml") "acme/site" =
      some "deploy.yml" ∧
    (serve cfg req now now2 fo dko).response =
      ⟨400, [("error", Json.str "Repository not configured"),
             ("message", Json.str ("No workflow mapping found for repository: " ++
                repositoryFullNameOf p)),
             ("available_repositories", Json.arr [Json.str "acme/app", Json.str "acme/site"])]⟩ ∧
    (serve cfg req now now2 fo dko).calls = [.fetchRepoMetadata o n] := by
  have hres := resolveWorkflow_notconfigured "acme/app:ci.yml,acme/site:deploy.yml"
    (repositoryFullNameOf p) (by decide) (by decide) (getVal_none_of_not_mem _ _ hrepo)
  have h5 : resolveWorkflow cfg.workflowMappings (repositoryFullNameOf p) =
      .error ⟨400, [("error", Json.str "Repository not configured"),
                    ("message", Json.str ("No workflow mapping found for repository: " ++
                       repositoryFullNameOf p)),
                    ("available_repositories",
                     Json.arr ((keysOf (parseWorkflowMappings
                       "acme/app:ci.yml,acme/site:deploy.yml")).map Json.str))]⟩ := by
    rw [hm]; exact hres
  rw [serve_resolve_error cfg req now now2 fo dko k o n p wb _ h1 h2 h3 h4 h5]
  exact ⟨rfl, rfl, rfl⟩

/-- Witness for C6: the repository "other/repo" is not configured. -/
theorem C6_witness :
    getVal (parseWorkflowMappings "acme/app:ci.yml,acme/site:deploy.yml") "acme/site" =
      some "deploy.yml" ∧
    (serve cfgStd ⟨some "push", some payloadOtherRepo⟩ "T1" "T2"
        (.ok (some "main")) .ok).response =
      ⟨400, [("error", Json.str "Repository not configured"),
             ("message", Json.str ("No workflow mapping found for repository: " ++
                repositoryFullNameOf payloadOtherRepo)),
             ("available_repositories", Json.arr [Json.str "acme/app", Json.str "acme/site"])]⟩ ∧
    (serve cfgStd ⟨some "push", some payloadOtherRepo⟩ "T1" "T2"
        (.ok (some "main")) .ok).calls = [.fetchRepoMetadata "own" "anam"] :=
  C6_mapping_roundtrip cfgStd ⟨some "push", some payloadOtherRepo⟩ "T1" "T2"
    (.ok (some "main")) .ok "push" "own" "anam" payloadOtherRepo "main"
    rfl rfl rfl rfl rfl (by decide)

/-- C1 counterexample: a push whose ref is "refs/tags/v1.0" (not of the
refs/heads form) is not rejected; the handler dispatches with the full
ref string as the branch parameter. -/
theorem C1_counterexample :
    (serve cfgStd ⟨some "push", some payloadPushTag⟩ "T1" "T2"
        (.ok (some "main")) .ok).response.status = 200 ∧
    (serve cfgStd ⟨some "push", some payloadPushTag⟩ "T1" "T2"
        (.ok (some "main")) .ok).response.status ≠ 400 ∧
    OutboundCall.dispatchWorkflow "own" "anam" "ci.yml" "main"
        [("event_type", "push"), ("timestamp", "T1"), ("repository", "acme/app"),
         ("branch", "refs/tags/v1.0"), ("author", "alice"), ("commit_sha", "abc123"),
         ("commit_message", ""), ("commit_url", "")]
      ∈ (serve cfgStd ⟨some "push", some payloadPushTag⟩ "T1" "T2"
          (.ok (some "main")) .ok).calls :=
  ⟨rfl, by decide, by decide⟩

/-- C1 (amended): for a non-deletion push the handler requires only that
`ref` be present; the branch is the ref with the first occurrence of
"refs/heads/" removed (which strips the prefix exactly when the ref has
the refs/heads form), 400 when `ref` is absent or the result empty, and
otherwise the dispatch carries that branch value. -/
theorem C1_amended (cfg : Config) (req : Request) (now now2 : String)
    (fo : FetchOutcome) (dko : DispatchOutcome)
    (o n : String) (p : Payload) (wb wf : String)
    (hev : req.eventHeader = some "push")
    (h2 : validateConfig cfg = .ok (o, n)) (h3 : req.body = some p)
    (h4 : fetchDefaultBranch fo = .ok wb)
    (h5 : resolveWorkflow cfg.workflowMappings (repositoryFullNameOf p) = .ok wf)
    (hdel : p.deleted ≠ some true) :
    (optTruthy p.ref = false →
       (serve cfg req now now2 fo dko).response =
         ⟨400, [("error", Json.str "Invalid push event payload: missing ref")]⟩ ∧
       (serve cfg req now now2 fo dko).calls = [.fetchRepoMetadata o n]) ∧
    (∀ r, p.ref = some r → r ≠ "" → jsReplaceFirst r "refs/heads/" "" = "" →
       (serve cfg req now now2 fo dko).response =
         ⟨400, [("error", Json.str "Invalid branch reference format")]⟩ ∧
       (serve cfg req now now2 fo dko).calls = [.fetchRepoMetadata o n]) ∧
    (∀ r b, p.ref = some r → r ≠ "" → jsReplaceFirst r "refs/heads/" "" = b → b ≠ "" →
       ∃ ins, (serve cfg req now now2 fo dko).calls =
           [.fetchRepoMetadata o n, .dispatchWorkflow o n wf wb ins] ∧
         getVal ins "branch" = some b) ∧
    (∀ b : String, jsReplaceFirst ("refs/heads/" ++ b) "refs/heads/" "" = b) := by
  have h1 : validateEvent req = .ok "push" := validateEvent_ok_of _ _ hev (by decide)
  have hserve := serve_steps cfg req now now2 fo dko _ o n p wb wf h1 h2
    (parsePayload_ok_of _ _ h3) h4 h5
  refine ⟨?_, ?_, ?_, jsReplaceFirst_strip⟩
  · intro href
    rw [hserve, normalizeEvent_push_noref p _ hdel href]
    exact ⟨rfl, rfl⟩
  · intro r hr hrne hb
    rw [hserve, normalizeEvent_push_emptybranch p _ r hdel hr hrne hb]
    exact ⟨rfl, rfl⟩
  · intro r b hr hrne hb hbne
    rw [hserve, normalizeEvent_push_ok p (baseInputs "push" now p) r b hdel hr hrne hb hbne]
    set i1 := setVal (setVal (setVal (setVal (setVal (baseInputs "push" now p)
      "branch" b) "author" (jsOrStr p.pusher_name "Unknown"))
      "commit_sha" (jsOrStr p.after ""))
      "commit_message" (jsOrStr p.head_commit_message ""))
      "commit_url" (jsOrStr p.head_commit_url "") with hi1
    have hbranch : getVal i1 "branch" = some b := by
      rw [hi1]
      rw [getVal_setVal_ne _ _ _ _ (by decide), getVal_setVal_ne _ _ _ _ (by decide),
          getVal_setVal_ne _ _ _ _ (by decide), getVal_setVal_ne _ _ _ _ (by decide),
          getVal_setVal_self]
    have hbc : branchCheck i1 "push" p = .ok () :=
      branchCheck_ok i1 "push" p (by rw [hbranch]; simp [optTruthy, strTruthy, hbne])
    simp only [hbc]
    exact ⟨trimInputs i1, rfl, getVal_trimInputs_branch _ _ hbranch⟩

/-- Witness for C1: the spec's own scenario, refs/heads/main, dispatches
with branch "main". -/
theorem C1_witness :
    (∃ ins, (serve cfgStd ⟨some "push", some payloadPushMain⟩ "T1" "T2"
          (.ok (some "main")) .ok).calls =
        [.fetchRepoMetadata "own" "anam",
         .dispatchWorkflow "own" "anam" "ci.yml" "main" ins] ∧
      getVal ins "branch" = some "main") ∧
    jsReplaceFirst ("refs/heads/" ++ "main") "refs/heads/" "" = "main" :=
  ⟨(C1_amended cfgStd ⟨some "push", some payloadPushMain⟩ "T1" "T2"
      (.ok (some "main")) .ok "own" "anam" payloadPushMain "main" "ci.yml"
      rfl rfl rfl rfl rfl (by decide)).2.2.1 "refs/heads/main" "main"
      rfl (by decide) (by decide) (by decide),
   (C1_amended cfgStd ⟨some "push", some payloadPushMain⟩ "T1" "T2"
      (.ok (some "main")) .ok "own" "anam" payloadPushMain "main" "ci.yml"
      rfl rfl rfl rfl rfl (by decide)).2.2.2 "main"⟩

/-- C7 counterexample: with token, owner and name set but
WORKFLOW_MAPPINGS unset, the handler still issues the metadata fetch
before failing with the configuration 500 — the failure is not "before
any outbound network call". -/
theorem C7_counterexample :
    (serve ⟨some "tok", some "own", some "anam", none, none⟩
        ⟨some "push", some payloadPushMain⟩ "T1" "T2" (.ok (some "main")) .ok).response =
      ⟨500, [("error", Json.str "Server configuration error: missing workflow mappings")]⟩ ∧
    (serve ⟨some "tok", some "own", some "anam", none, none⟩
        ⟨some "push", some payloadPushMain⟩ "T1" "T2" (.ok (some "main")) .ok).calls =
      [.fetchRepoMetadata "own" "anam"] ∧
    (serve ⟨some "tok", some "own", some "anam", none, none⟩
        ⟨some "push", some payloadPushMain⟩ "T1" "T2" (.ok (some "main")) .ok).calls ≠ [] :=
  ⟨rfl, rfl, by decide⟩

/-- C7 (amended): missing token or owner/name fails with 500 before any
outbound call; a missing or unparseable workflow-mapping string also
fails with 500, but only after the metadata fetch has been issued (and
before any dispatch). -/
theorem C7_amended (cfg : Config) (req : Request) (now now2 : String)
    (fo : FetchOutcome) (dko : DispatchOutcome) :
    (∀ k, req.eventHeader = some k → k ≠ "" →
       optTruthy cfg.githubToken = false →
       (serve cfg req now now2 fo dko).response.status = 500 ∧
       (serve cfg req now now2 fo dko).calls = []) ∧
    (∀ k, req.eventHeader = some k → k ≠ "" →
       optTruthy cfg.githubToken = true →
       (optTruthy cfg.automationRepoOwner = false ∨
        optTruthy cfg.automationRepoName = false) →
       (serve cfg req now now2 fo dko).response.status = 500 ∧
       (serve cfg req now now2 fo dko).calls = []) ∧
    (∀ k o n p wb, validateEvent req = .ok k → validateConfig cfg = .ok (o, n) →
       parsePayload req = .ok p → fetchDefaultBranch fo = .ok wb →
       (optTruthy cfg.workflowMappings = false ∨
        (keysOf (parseWorkflowMappings (cfg.workflowMappings.getD ""))).length = 0) →
       (serve cfg req now now2 fo dko).response.status = 500 ∧
       (serve cfg req now now2 fo dko).calls = [.fetchRepoMetadata o n]) := by
  refine ⟨?_, ?_, ?_⟩
  · intro k hk hkne htok
    have h1 := validateEvent_ok_of _ _ hk hkne
    have h2 : validateConfig cfg = .error
        ⟨500, [("error", Json.str "Server configuration error: missing authentication token")]⟩ := by
      unfold validateConfig
      rw [if_pos (by simp [htok])]
    rw [serve_early cfg req now now2 fo dko _ (Or.inr (Or.inl ⟨k, h1, h2⟩))]
    exact ⟨rfl, rfl⟩
  · intro k hk hkne htok hmiss
    have h1 := validateEvent_ok_of _ _ hk hkne
    have h2 : validateConfig cfg = .error
        ⟨500, [("error", Json.str "Server configuration error: missing repository configuration")]⟩ := by
      unfold validateConfig
      rw [if_neg (by simp [htok])]
      rw [if_pos (by rcases hmiss with h | h
                     · exact Or.inl (by simp [h])
                     · exact Or.inr (by simp [h]))]
    rw [serve_early cfg req now now2 fo dko _ (Or.inr (Or.inl ⟨k, h1, h2⟩))]
    exact ⟨rfl, rfl⟩
  · intro k o n p wb h1 h2 h3 h4 hmap
    obtain ⟨r, hres, hstat⟩ :=
      resolveWorkflow_missing cfg.workflowMappings (repositoryFullNameOf p) hmap
    rw [serve_resolve_error cfg req now now2 fo dko k o n p wb r h1 h2 h3 h4 hres]
    exact ⟨hstat, rfl⟩

/-- Witness for C7: a missing token (500, no calls) and a missing mapping
string (500 after the fetch). -/
theorem C7_witness :
    ((serve ⟨none, some "own", some "anam", some "acme/app:ci.yml", none⟩
        ⟨some "push", some payloadPushMain⟩ "T1" "T2" (.ok (some "main")) .ok).response.status = 500 ∧
     (serve ⟨none, some "own", some "anam", some "acme/app:ci.yml", none⟩
        ⟨some "push", some payloadPushMain⟩ "T1" "T2" (.ok (some "main")) .ok).calls = []) ∧
    ((serve ⟨some "tok", some "own", some "anam", none, none⟩
        ⟨some "push", some payloadPushMain⟩ "T1" "T2" (.ok (some "main")) .ok).response.status = 500 ∧
     (serve ⟨some "tok", some "own", some "anam", none, none⟩
        ⟨some "push", some payloadPushMain⟩ "T1" "T2" (.ok (some "main")) .ok).calls =
       [.fetchRepoMetadata "own" "anam"]) :=
  ⟨(C7_amended ⟨none, some "own", some "anam", some "acme/app:ci.yml", none⟩
      ⟨some "push", some payloadPushMain⟩ "T1" "T2" (.ok (some "main")) .ok).1
      "push" rfl (by decide) rfl,
   (C7_amended ⟨some "tok", some "own", some "anam", none, none⟩
      ⟨some "push", some payloadPushMain⟩ "T1" "T2" (.ok (some "main")) .ok).2.2
      "push" "own" "anam" payloadPushMain "main" rfl rfl rfl rfl (Or.inl rfl)⟩

/-- C8: a workflow-dispatch call is only ever issued with a non-empty
`branch` input, and when the assembled inputs lack a truthy branch the
post-normalization check answers 400 (so no dispatch follows). -/
theorem C8_dispatch_requires_branch :
    (∀ cfg req now now2 fo dko o n wf wb ins,
        OutboundCall.dispatchWorkflow o n wf wb ins ∈
          (serve cfg req now now2 fo dko).calls →
        optTruthy (getVal ins "branch") = true) ∧
    (∀ inputs event p, optTruthy (getVal inputs "branch") = false →
        branchCheck inputs event p =
          .error ⟨400, [("error", Json.str "Could not determine branch to build"),
                        ("event", Json.str event),
                        ("payload_excerpt", Json.str p.excerpt)]⟩) := by
  constructor
  · intro cfg req now now2 fo dko o n wf wb ins hmem
    unfold serve at hmem
    split at hmem
    next r heq => simp at hmem
    next ev heq =>
      split at hmem
      next r heq2 => simp at hmem
      next o' n' heq2 =>
        split at hmem
        next r heq3 => simp at hmem
        next p heq3 =>
          simp only [] at hmem
          split at hmem
          next r heq4 => simp at hmem
          next wb' heq4 =>
            split at hmem
            next r heq5 => simp at hmem
            next wf' heq5 =>
              split at hmem
              next r heq6 => simp at hmem
              next i1 sb heq6 =>
                split at hmem
                next r heq7 => simp at hmem
                next u heq7 =>
                  simp only [List.mem_cons, List.mem_singleton,
                    List.not_mem_nil, or_false] at hmem
                  rcases hmem with hmem | hmem
                  · exact absurd hmem (by simp)
                  · have hins : ins = trimInputs i1 := by
                      have := hmem
                      simp only [OutboundCall.dispatchWorkflow.injEq] at this
                      exact this.2.2.2.2
                    subst hins
                    have htr : optTruthy (getVal i1 "branch") = true := by
                      unfold branchCheck at heq7
                      split at heq7
                      · simp at heq7
                      next hcond => exact not_not.mp hcond
                    cases hv : getVal i1 "branch" with
                    | none => rw [hv] at htr; simp [optTruthy] at htr
                    | some v =>
                      rw [getVal_trimInputs_branch i1 v hv]
                      rw [hv] at htr
                      exact htr
  · intro inputs event p h
    unfold branchCheck
    rw [if_pos (by simp [h])]

/-- Witness for C8: the inputs of the concrete dispatched push carry the
non-empty branch "main". -/
theorem C8_witness :
    optTruthy (getVal [("event_type", "push"), ("timestamp", "T1"),
        ("repository", "acme/app"), ("branch", "main"), ("author", "alice"),
        ("commit_sha", "abc123"), ("commit_message", ""), ("commit_url", "")]
      "branch") = true :=
  C8_dispatch_requires_branch.1 cfgStd ⟨some "push", some payloadPushMain⟩ "T1" "T2"
    (.ok (some "main")) .ok "own" "anam" "ci.yml" "main" _ (by decide)

/-- C9: no response of the main pipeline ever carries a stack field; the
catch-all includes the stack exactly when the diagnostic flag
(ENVIRONMENT=development) is set and a stack exists, and its non-stack
fields do not depend on the flag. -/
theorem C9_stack_gating :
    (∀ cfg req now now2 fo dko,
       hasField (serve cfg req now now2 fo dko).response "stack" = false) ∧
    (∀ cfg err, hasField (catchAllResponse cfg err) "stack" =
       (decide (cfg.environment = some "development") && (errStackOf err).isSome)) ∧
    (∀ cfg₁ cfg₂ : Config, ∀ err,
       (catchAllResponse cfg₁ err).body.filter (fun f => f.1 != "stack") =
       (catchAllResponse cfg₂ err).body.filter (fun f => f.1 != "stack")) := by
  refine ⟨serve_no_stack, ?_, ?_⟩
  · intro cfg err
    rcases err with _ | ⟨m, st⟩
    · by_cases hc : cfg.environment = some "development" <;>
        simp [catchAllResponse, hasField, errStackOf, hc]
    · rcases st with _ | st <;>
        by_cases hc : cfg.environment = some "development" <;>
          simp [catchAllResponse, hasField, errStackOf, hc]
  · intro cfg₁ cfg₂ err
    rcases err with _ | ⟨m, st⟩
    · by_cases h1 : cfg₁.environment = some "development" <;>
        by_cases h2 : cfg₂.environment = some "development" <;>
          simp [catchAllResponse, h1, h2]
    · rcases st with _ | st <;>
        by_cases h1 : cfg₁.environment = some "development" <;>
          by_cases h2 : cfg₂.environment = some "development" <;>
            simp [catchAllResponse, h1, h2]

/-- C10: with the header, configuration and payload valid, the metadata
fetch outcome and the mapping lookup decide the response before the
event-kind branch runs: a failed fetch yields 500 and an unmapped
repository yields 400, for every event kind, never the ignored-success. -/
theorem C10_fetch_and_mapping_first (cfg : Config) (req : Request) (now now2 : String)
    (fo : FetchOutcome) (dko : DispatchOutcome) (k o n : String) (p : Payload)
    (h1 : validateEvent req = .ok k) (h2 : validateConfig cfg = .ok (o, n))
    (h3 : parsePayload req = .ok p) :
    (∀ r, fetchDefaultBranch fo = .error r →
       (serve cfg req now now2 fo dko).response = r ∧
       (serve cfg req now now2 fo dko).response.status = 500 ∧
       (serve cfg req now now2 fo dko).calls = [.fetchRepoMetadata o n] ∧
       (serve cfg req now now2 fo dko).response.status ≠ 200) ∧
    (∀ wb m, fetchDefaultBranch fo = .ok wb →
       cfg.workflowMappings = some m → m ≠ "" →
       (keysOf (parseWorkflowMappings m)).length ≠ 0 →
       getVal (parseWorkflowMappings m) (repositoryFullNameOf p) = none →
       (serve cfg req now now2 fo dko).response.status = 400 ∧
       hasField (serve cfg req now now2 fo dko).response "error" = true ∧
       (serve cfg req now now2 fo dko).calls = [.fetchRepoMetadata o n] ∧
       (serve cfg req now now2 fo dko).response.status ≠ 200) := by
  constructor
  · intro r hferr
    rw [serve_fetch_error cfg req now now2 fo dko k o n p r h1 h2 h3 hferr]
    have h500 := fetchDefaultBranch_error_status fo r hferr
    exact ⟨rfl, h500, rfl, by show r.status ≠ 200; omega⟩
  · intro wb m hfok hm hmne hz hl
    have hres := resolveWorkflow_notconfigured m (repositoryFullNameOf p) hmne hz hl
    have h5 : resolveWorkflow cfg.workflowMappings (repositoryFullNameOf p) =
        .error ⟨400, [("error", Json.str "Repository not configured"),
                      ("message", Json.str ("No workflow mapping found for repository: " ++
                         repositoryFullNameOf p)),
                      ("available_repositories",
                       Json.arr ((keysOf (parseWorkflowMappings m)).map Json.str))]⟩ := by
      rw [hm]; exact hres
    rw [serve_resolve_error cfg req now now2 fo dko k o n p wb _ h1 h2 h3 hfok h5]
    exact ⟨rfl, rfl, rfl, by show (400 : Nat) ≠ 200; decide⟩

/-- Witness for C10: an "issues" event hits the failed fetch (500) and
the unmapped repository (400), never the ignored-success. -/
theorem C10_witness :
    ((serve cfgStd ⟨some "issues", some payloadPushMain⟩ "T1" "T2"
        (.httpError 404 "nf") .ok).response =
      ⟨500, [("error", Json.str "Failed to fetch automation repository metadata"),
             ("status", Json.nat 404), ("details", Json.str "nf")]⟩ ∧
     (serve cfgStd ⟨some "issues", some payloadPushMain⟩ "T1" "T2"
        (.httpError 404 "nf") .ok).response.status = 500 ∧
     (serve cfgStd ⟨some "issues", some payloadPushMain⟩ "T1" "T2"
        (.httpError 404 "nf") .ok).calls = [.fetchRepoMetadata "own" "anam"] ∧
     (serve cfgStd ⟨some "issues", some payloadPushMain⟩ "T1" "T2"
        (.httpError 404 "nf") .ok).response.status ≠ 200) ∧
    ((serve cfgStd ⟨some "issues", some payloadOtherRepo⟩ "T1" "T2"
        (.ok (some "main")) .ok).response.status = 400 ∧
     hasField (serve cfgStd ⟨some "issues", some payloadOtherRepo⟩ "T1" "T2"
        (.ok (some "main")) .ok).response "error" = true ∧
     (serve cfgStd ⟨some "issues", some payloadOtherRepo⟩ "T1" "T2"
        (.ok (some "main")) .ok).calls = [.fetchRepoMetadata "own" "anam"] ∧
     (serve cfgStd ⟨some "issues", some payloadOtherRepo⟩ "T1" "T2"
        (.ok (some "main")) .ok).response.status ≠ 200) :=
  ⟨(C10_fetch_and_mapping_first cfgStd ⟨some "issues", some payloadPushMain⟩ "T1" "T2"
      (.httpError 404 "nf") .ok "issues" "own" "anam" payloadPushMain rfl rfl rfl).1
      ⟨500, [("error", Json.str "Failed to fetch automation repository metadata"),
             ("status", Json.nat 404), ("details", Json.str "nf")]⟩ rfl,
   (C10_fetch_and_mapping_first cfgStd ⟨some "issues", some payloadOtherRepo⟩ "T1" "T2"
      (.ok (some "main")) .ok "issues" "own" "anam" payloadOtherRepo rfl rfl rfl).2
      "main" "acme/app:ci.yml,acme/site:deploy.yml" rfl rfl (by decide) (by decide) (by decide)⟩

end Webhook
